import Mathlib

/-!
Verification of the ytdl batch-download orchestrator.

The development shallowly embeds the JavaScript source (`src/unnamed/part_000`,
the latest revision, together with the two earlier revisions concatenated in
`src/index.js`).  External collaborators (the `ytpl` playlist resolver, the
`ytdl` media resolver, the filesystem, `p-limit`, `sanitize-filename`) are
modelled as explicit parameters / oracles.  JavaScript `Number` arithmetic that
can produce `NaN` or `Infinity` is modelled by the type `JNum`; JavaScript
`Array.prototype.slice` is modelled by `jsSlice`.
-/

namespace Ytdl

/-- The ad-hoc dynamic error objects of the source (`{ code, message }`).
`code` is `none` when the error carries no numeric `code` field (e.g. a thrown
filesystem `Error`), so the JS test `error.code == 404` is `code = some 404`. -/
structure JsError where
  code : Option Nat
  message : String
  deriving Repr, DecidableEq

/-- A playlist item as returned by the playlist resolver: `{ title, url }`. -/
structure PlaylistItem where
  title : String
  url : String
  deriving Repr, DecidableEq

/-- The playlist object used by `main`: `title`, `estimated_items` and the
ordered `items` list. -/
structure Playlist where
  title : String
  estimated_items : Int
  items : List PlaylistItem
  deriving Repr, DecidableEq

/-- The `videoDetails` part of `ytdl.getBasicInfo` used by the fallback path. -/
structure VideoInfo where
  title : String
  video_url : String
  deriving Repr, DecidableEq

/-! ### JavaScript `Array.prototype.slice` -/

/-- Clamp a JS slice index into `[0, len]`: a negative index counts from the
end, a nonnegative one is capped at `len`. -/
def jsSliceIdx (len : Nat) (i : Int) : Nat :=
  if i < 0 then (max ((len : Int) + i) 0).toNat else min i.toNat len

/-- `xs.slice(start, stop)` of JavaScript: the elements from the clamped
`start` (inclusive) to the clamped `stop` (exclusive). -/
def jsSlice (xs : List α) (start stop : Int) : List α :=
  (xs.drop (jsSliceIdx xs.length start)).take
    (jsSliceIdx xs.length stop - jsSliceIdx xs.length start)

/-- The batch the orchestrator schedules
(`playlist.items.slice(offset, offset + actualLimit)` with
`actualLimit = Math.min(limit, playlist.estimated_items - offset)`,
src/unnamed/part_000 lines 62 and 68-69). -/
def scheduledSlice (items : List PlaylistItem) (est offset limit : Int) :
    List PlaylistItem :=
  jsSlice items offset (offset + min limit (est - offset))

/-! ### JavaScript number arithmetic

The progress computation divides by `total`, which may be `0` or undefined, so
the embedding needs `NaN` and the infinities.  A finite value is an exact
(unnormalized) fraction `n / d` with `d > 0` maintained by the operations —
the operations used (division, multiplication, subtraction) agree with IEEE
doubles up to rounding, on which no claim depends; special-value propagation
follows the IEEE rules JavaScript uses. -/

inductive JNum where
  | num (n : Int) (d : Nat)
  | nan
  | inf
  | ninf
  deriving Repr, DecidableEq

def JNum.div : JNum → JNum → JNum
  | nan, _ | _, nan => nan
  | inf, inf | inf, ninf | ninf, inf | ninf, ninf => nan
  | inf, num c _ => if c < 0 then ninf else inf
  | ninf, num c _ => if c < 0 then inf else ninf
  | num _ _, inf | num _ _, ninf => num 0 1
  | num a b, num c d =>
      if c = 0 then (if a = 0 then nan else if a < 0 then ninf else inf)
      else num (a * d * c.sign) (b * c.natAbs)

def JNum.mul : JNum → JNum → JNum
  | nan, _ | _, nan => nan
  | inf, inf | ninf, ninf => inf
  | inf, ninf | ninf, inf => ninf
  | inf, num c _ | num c _, inf =>
      if c = 0 then nan else if c < 0 then ninf else inf
  | ninf, num c _ | num c _, ninf =>
      if c = 0 then nan else if c < 0 then inf else ninf
  | num a b, num c d => num (a * c) (b * d)

def JNum.sub : JNum → JNum → JNum
  | nan, _ | _, nan => nan
  | inf, inf | ninf, ninf => nan
  | inf, _ => inf
  | ninf, _ => ninf
  | num _ _, inf => ninf
  | num _ _, ninf => inf
  | num a b, num c d => num (a * d - c * b) (b * d)

def pad2 (k : Nat) : String := if k < 10 then "0" ++ toString k else toString k

/-- JavaScript `toFixed(2)`: `NaN` renders as `"NaN"`, the infinities as
`"Infinity"` / `"-Infinity"`; a finite value keeps its sign and has its
magnitude rounded to two decimals, ties away from zero
(`⌊|n|/d * 100 + 1/2⌋ = (200*|n| + d) / (2*d)` in integer arithmetic). -/
def JNum.toFixed2 : JNum → String
  | nan => "NaN"
  | inf => "Infinity"
  | ninf => "-Infinity"
  | num a b =>
      let n : Nat := (200 * a.natAbs + b) / (2 * b)
      (if a < 0 then "-" else "") ++ toString (n / 100) ++ "." ++ pad2 (n % 100)

/-! ### Item downloader (`downloadVideo`) -/

/-- One `progress` event from the media resolver stream: bytes downloaded so
far, the declared `total` (`none` models an undefined total), and the
milliseconds elapsed since the `response` event set `starttime`. -/
structure ProgressEv where
  downloaded : Nat
  total : Option Nat
  elapsedMs : Nat
  deriving Repr, DecidableEq

/-- An undefined `total` behaves as `NaN` in JavaScript arithmetic. -/
def jsTotal : Option Nat → JNum
  | none => JNum.nan
  | some n => JNum.num n 1

/-- The spinner line built in the `progress` handler
(src/unnamed/part_000 lines 137-153): completion percentage
(`downloaded / total`), transferred and total megabytes (`/1024/1024`), and
the estimated minutes left
(`downloadedMinutes / percent - downloadedMinutes` with
`downloadedMinutes = elapsedMs / 1000 / 60`), each via `toFixed(2)`. -/
def renderProgressLine (title : String) (ev : ProgressEv) : String :=
  let percent := JNum.div (JNum.num ev.downloaded 1) (jsTotal ev.total)
  let downloadedMinutes := JNum.div
    (JNum.div (JNum.num ev.elapsedMs 1) (JNum.num 1000 1)) (JNum.num 60 1)
  let estimatedDownloadTime :=
    JNum.sub (JNum.div downloadedMinutes percent) downloadedMinutes
  "Downloading " ++ title ++
    ", Completed: " ++ (JNum.mul percent (JNum.num 100 1)).toFixed2 ++ "%" ++
    ", " ++ (JNum.div (JNum.div (JNum.num ev.downloaded 1)
      (JNum.num 1024 1)) (JNum.num 1024 1)).toFixed2 ++ "MB of " ++
    (JNum.div (JNum.div (jsTotal ev.total)
      (JNum.num 1024 1)) (JNum.num 1024 1)).toFixed2 ++ "MB" ++
    ", estimated time left: " ++ estimatedDownloadTime.toFixed2 ++ "minutes"

/-- How the media resolver stream for one job ends. -/
inductive StreamTerminal where
  | ended
  | errored (e : JsError)
  deriving Repr, DecidableEq

/-- The observable behaviour of one media resolver stream: its `progress`
events followed by its terminal event. -/
structure StreamTrace where
  progress : List ProgressEv
  terminal : StreamTerminal
  deriving Repr, DecidableEq

def pathJoin (a b : String) : String := a ++ "/" ++ b

/-- JavaScript `String.prototype.split` with a one-character separator,
on the character list. -/
def jsSplitChar (sep : Char) : List Char → List (List Char)
  | [] => [[]]
  | c :: rest =>
      match jsSplitChar sep rest with
      | [] => if c = sep then [[], []] else [[c]]
      | h :: t => if c = sep then [] :: h :: t else (c :: h) :: t

/-- `s.split(sep)` of JavaScript (used as `targetDir.split(path.sep)`). -/
def jsSplit (sep : Char) (s : String) : List String :=
  (jsSplitChar sep s.data).map String.mk

/-- `pat` occurs contiguously in `s` (both as character lists). -/
def hasSub (pat : List Char) : List Char → Bool
  | [] => pat.isEmpty
  | c :: rest => pat.isPrefixOf (c :: rest) || hasSub pat rest

/-- `pat` occurs as a substring of `s`. -/
def strHasSub (s pat : String) : Bool := hasSub pat.data s.data

deriving instance DecidableEq for Except

/-- The observable effects of one `downloadVideo` run. -/
structure DownloadRun where
  filePath : String
  addText : String
  updates : List String
  result : Except JsError String
  deriving Repr, DecidableEq

/-- `downloadVideo` (src/unnamed/part_000 lines 127-164) as a function of the
stream's trace: it writes to `outputDir/title.mp4`, registers and updates the
spinner, resolves with a completion message on `end` and rejects with the
stream error on `error`. -/
def downloadVideo (title outputDir : String) (trace : StreamTrace) :
    DownloadRun :=
  { filePath := pathJoin outputDir (title ++ ".mp4")
    addText := "Downloading " ++ title
    updates := trace.progress.map (renderProgressLine title)
    result := match trace.terminal with
      | .ended => .ok ("Finished downloading " ++ title)
      | .errored e => .error e }

/-- The settled outcome of `downloadVideo` from the first revision
(src/index.js lines 67-94): identical except that it installs no handler for
the stream `error` event, so on a stream error the returned promise never
settles (`none`). -/
def downloadVideoV1 (title : String) (trace : StreamTrace) :
    Option (Except JsError String) :=
  match trace.terminal with
  | .ended => some (.ok ("Finished downloading " ++ title))
  | .errored _ => none

/-! ### `mkDirByPathSync` -/

/-- Outcome of one `fs.mkdirSync` call, by `errno` code string. -/
inductive FsResult where
  | ok
  | error (code : String)
  deriving Repr, DecidableEq

/-- One step of the `reduce` in `mkDirByPathSync`: try to create
`parentDir/childDir` and classify a failure.  Paths are modelled as segment
lists (a normalized relative `targetDir`, so `curDir === path.resolve(targetDir)`
is segment-list equality with the full target). -/
def mkDirStep (mkdir : List String → FsResult) (targetDir : List String)
    (parentDir : List String) (childDir : String) :
    Except String (List String) :=
  let curDir := parentDir ++ [childDir]
  match mkdir curDir with
  | .ok => .ok curDir
  | .error code =>
      if code = "EEXIST" then .ok curDir
      else if code = "ENOENT" then
        .error ("EACCES: permission denied, mkdir " ++
          String.intercalate "/" parentDir)
      else if (code = "EACCES" ∨ code = "EPERM" ∨ code = "EISDIR")
          ∧ curDir ≠ targetDir then
        .ok curDir
      else .error code

/-- `mkDirByPathSync` (src/unnamed/part_000 lines 166-195): create every
path segment in turn; a thrown error aborts the fold. -/
def mkDirByPathSync (mkdir : List String → FsResult)
    (targetDir : List String) : Except String (List String) :=
  targetDir.foldl
    (fun acc childDir =>
      match acc with
      | .error e => .error e
      | .ok parentDir => mkDirStep mkdir targetDir parentDir childDir)
    (.ok [])

/-! ### `getPLaylist`, `Promise.all` and the `main` action -/

/-- `getPLaylist` (src/unnamed/part_000 lines 111-125).  The outcome of the
external `ytpl(playlistLink, { limit: Infinity })` call is the `ytplResult`
parameter; an empty link is the falsy `!playlistLink` case. -/
def getPLaylist (playlistLink : String)
    (ytplResult : Except JsError Playlist) : Except JsError Playlist :=
  if playlistLink = "" then
    .error { code := some 400, message := "No playlist link provided" }
  else
    match ytplResult with
    | .ok playlist => .ok playlist
    | .error _ =>
        .error { code := some 404, message := "Playlist link or id not found" }

/-- The value `await Promise.all(promises)` settles to, from the promises'
own settled outcomes in submission order: the list of fulfilled values when
all fulfil, otherwise a rejection carrying a failing promise's error
(determinized to the first in submission order; exact when at most one
fails). -/
def promiseAll : List (Except JsError α) → Except JsError (List α)
  | [] => .ok []
  | .error e :: _ => .error e
  | .ok a :: rest => (promiseAll rest).map (a :: ·)

/-- Modelled from the spec: the external `sanitize-filename` package
("Sanitization: transformation of an arbitrary title string into a safe
filesystem path component") — characters illegal in filenames are removed. -/
def sanitizeModel (s : String) : String :=
  String.mk (s.data.filter (fun c =>
    !(c == '/' || c == '\\' || c == '?' || c == '<' || c == '>' ||
      c == ':' || c == '*' || c == '|' || c == '"' || c.toNat < 32)))

/-- The external-world outcomes one run of the CLI action depends on. -/
structure Env where
  link : String
  output : String
  titleDir : Bool
  offset : Int
  limit : Int
  ytplResult : Except JsError Playlist
  mkdirFs : List String → FsResult
  trace : PlaylistItem → StreamTrace
  basicInfo : Except JsError VideoInfo
  fallbackTrace : StreamTrace

/-- The observable outcome of one run of the CLI action.  `exitCode = some n`
means `process.exit(n)` was called; `none` means the process exits normally
(status 0) once the event loop drains. -/
structure MainResult where
  scheduled : List PlaylistItem := []
  jobs : List DownloadRun := []
  batch : Option (Except JsError (List String)) := none
  finishedLog : Option Nat := none
  basicInfoRequested : Bool := false
  direct : List DownloadRun := []
  exitCode : Option Nat := none
  errorReported : Bool := false
  deriving Repr

/-- The catch-block fallback (src/unnamed/part_000 lines 84-98): resolve the
link as a single video with `ytdl.getBasicInfo` and run one `downloadVideo`
directly — not through the limiter — using the raw `videoDetails.title`;
any failure inside exits with code 1. -/
def fallbackRun (env : Env) (acc : MainResult) : MainResult :=
  match env.basicInfo with
  | .error _ =>
      { acc with
        basicInfoRequested := true
        exitCode := some 1
        errorReported := true }
  | .ok info =>
      match mkDirByPathSync env.mkdirFs (jsSplit '/' env.output) with
      | .error _ =>
          { acc with
            basicInfoRequested := true
            exitCode := some 1
            errorReported := true }
      | .ok _ =>
          let run := downloadVideo info.title env.output env.fallbackTrace
          match run.result with
          | .ok _ => { acc with basicInfoRequested := true, direct := [run] }
          | .error _ =>
              { acc with
                basicInfoRequested := true
                direct := [run]
                exitCode := some 1
                errorReported := true }

/-- The batch part of the action (src/unnamed/part_000 lines 61-82), after
the playlist resolved and the output directory was created: slice, submit
every job through the limiter (each runs to its own settlement — promises are
not cancellable, so a `Promise.all` rejection discards sibling results but
does not stop them), await `Promise.all`, and exit 0 on success.  A rejection
reaches the same catch block as resolution errors: `code == 404` triggers the
single-video fallback, anything else is only logged. -/
def batchRun (sanitize : String → String) (env : Env) (playlist : Playlist)
    (outputDir : String) : MainResult :=
  let sched := scheduledSlice playlist.items playlist.estimated_items
    env.offset env.limit
  let jobs := sched.map (fun item =>
    downloadVideo (sanitize item.title) outputDir (env.trace item))
  match promiseAll (jobs.map (fun j => j.result)) with
  | .ok msgs =>
      { scheduled := sched
        jobs := jobs
        batch := some (.ok msgs)
        finishedLog := some msgs.length
        exitCode := some 0 }
  | .error e =>
      if e.code = some 404 then
        fallbackRun env
          { scheduled := sched
            jobs := jobs
            batch := some (.error e) }
      else
        { scheduled := sched
          jobs := jobs
          batch := some (.error e)
          errorReported := true }

/-- The `.action` body of `main` (src/unnamed/part_000 lines 47-103) as a
function of the external outcomes.  `sanitize` is the external
`sanitize-filename` function.  A caught error without `code == 404` — the
400 rejection for an empty link, or a thrown directory-creation error — is
only logged (`console.error`), with no `process.exit` call. -/
def mainRun (sanitize : String → String) (env : Env) : MainResult :=
  match getPLaylist env.link env.ytplResult with
  | .ok playlist =>
      let outputDir :=
        if env.titleDir then pathJoin env.output (sanitize playlist.title)
        else env.output
      match mkDirByPathSync env.mkdirFs (jsSplit '/' outputDir) with
      | .error _ => { errorReported := true }
      | .ok _ => batchRun sanitize env playlist outputDir
  | .error e =>
      if e.code = some 404 then fallbackRun env {}
      else { errorReported := true }

/-! ### The concurrency limiter

Modelled from the spec: the Concurrency Limiter (`p-limit`) is an external
dependency, not part of this repository's sources; §4.2 specifies a fixed
pool of `concurrency` execution slots, FIFO queueing when all slots are
occupied, and immediate handover of a freed slot to the next queued task. -/

/-- Limiter state: tasks currently holding an execution slot, tasks queued. -/
structure LimiterState where
  active : Nat
  queued : Nat
  deriving Repr, DecidableEq

/-- Transitions of the limiter with `k` slots: a submitted task runs at once
when a slot is free and queues otherwise; a settling task frees its slot,
handed immediately to the next queued task when one exists. -/
inductive LimStep (k : Nat) : LimiterState → LimiterState → Prop
  | submitRun (s : LimiterState) :
      s.active < k → LimStep k s ⟨s.active + 1, s.queued⟩
  | submitQueue (s : LimiterState) :
      k ≤ s.active → LimStep k s ⟨s.active, s.queued + 1⟩
  | settleNext (s : LimiterState) (q : Nat) :
      s.queued = q + 1 → 0 < s.active → LimStep k s ⟨s.active, q⟩
  | settleIdle (s : LimiterState) :
      s.queued = 0 → 0 < s.active → LimStep k s ⟨s.active - 1, 0⟩

/-- Limiter states reachable from the initial idle state. -/
inductive LimReachable (k : Nat) : LimiterState → Prop
  | init : LimReachable k ⟨0, 0⟩
  | step {s t : LimiterState} :
      LimReachable k s → LimStep k s t → LimReachable k t

end Ytdl

namespace Ytdl

theorem jsSliceIdx_of_nonneg (len : Nat) (i : Int) (h : 0 ≤ i) :
    jsSliceIdx len i = min i.toNat len := by
  simp [jsSliceIdx, not_lt.mpr h]

/-- For nonnegative `offset` and `limit` and an accurate item count, the
scheduled slice is exactly `take`/`drop` of the item list. -/
theorem scheduledSlice_eq_take_drop (items : List PlaylistItem)
    (offset limit : Int) (hoff : 0 ≤ offset) (hlim : 0 ≤ limit) :
    scheduledSlice items (items.length : Int) offset limit =
      (items.drop offset.toNat).take
        ((min limit ((items.length : Int) - offset)).toNat) := by
  have hstop : 0 ≤ offset + min limit ((items.length : Int) - offset) := by
    rcases le_or_lt offset (items.length : Int) with h | h <;> omega
  unfold scheduledSlice jsSlice
  rw [jsSliceIdx_of_nonneg _ _ hoff, jsSliceIdx_of_nonneg _ _ hstop]
  rcases le_or_lt offset (items.length : Int) with h | h
  · have h1 : (offset + min limit ((items.length : Int) - offset)).toNat
        = offset.toNat + (min limit ((items.length : Int) - offset)).toNat := by
      omega
    have h2 : min offset.toNat items.length = offset.toNat := by omega
    rw [h1, h2]
    have h3 : min (offset.toNat +
          (min limit ((items.length : Int) - offset)).toNat) items.length
        = offset.toNat + (min limit ((items.length : Int) - offset)).toNat := by
      omega
    rw [h3, Nat.add_sub_cancel_left]
  · have h2 : min offset.toNat items.length = items.length := by omega
    rw [h2, List.drop_length, List.take_nil,
      List.drop_eq_nil_of_le (by omega : items.length ≤ offset.toNat),
      List.take_nil]

/-! ### Substring helper lemmas -/

theorem hasSub_nil (t : List Char) : hasSub [] t = true := by
  cases t <;> simp [hasSub, List.isPrefixOf]

theorem hasSub_append_right (pat t s : List Char)
    (h : hasSub pat t = true) : hasSub pat (s ++ t) = true := by
  induction s with
  | nil => simpa using h
  | cons c rest ih => simp [hasSub, ih]

theorem isPrefixOf_append (p s t : List Char)
    (h : p.isPrefixOf s = true) : p.isPrefixOf (s ++ t) = true := by
  rw [List.isPrefixOf_iff_prefix] at h ⊢
  exact h.trans (s.prefix_append t)

theorem hasSub_append_left (pat s t : List Char)
    (h : hasSub pat s = true) : hasSub pat (s ++ t) = true := by
  induction s with
  | nil =>
      have hp : pat = [] := by
        simpa [hasSub, List.isEmpty_iff] using h
      subst hp
      simpa using hasSub_nil t
  | cons c rest ih =>
      have h' := h
      simp only [hasSub, Bool.or_eq_true] at h'
      rcases h' with h1 | h2
      · have := isPrefixOf_append pat (c :: rest) t h1
        simp only [hasSub, Bool.or_eq_true]
        left
        simpa using this
      · simp only [hasSub, Bool.or_eq_true]
        right
        exact ih h2

/-! ### Structural lemmas about the main flow -/

theorem fallbackRun_fields (env : Env) (acc : MainResult) :
    (fallbackRun env acc).scheduled = acc.scheduled
      ∧ (fallbackRun env acc).jobs = acc.jobs
      ∧ (fallbackRun env acc).batch = acc.batch
      ∧ (fallbackRun env acc).basicInfoRequested = true := by
  unfold fallbackRun
  cases env.basicInfo with
  | error e => simp
  | ok info =>
      cases mkDirByPathSync env.mkdirFs (jsSplit '/' env.output) with
      | error m => simp
      | ok made =>
          cases hr : (downloadVideo info.title env.output env.fallbackTrace).result
            <;> simp [hr]

/-! ### Concrete data for witnesses and counterexamples -/

def demoItems : List PlaylistItem :=
  [⟨"A", "urlA"⟩, ⟨"B", "urlB"⟩, ⟨"C", "urlC"⟩, ⟨"D", "urlD"⟩, ⟨"E", "urlE"⟩]

/-- A per-job stream error that carries no `code` field. -/
def errStream : JsError := ⟨none, "socket reset"⟩

/-! ### C1 -/

/-- C1: for every item list, nonnegative offset and limit, and an accurate
item count, the orchestrator schedules exactly
`max 0 (min limit (itemCount - offset))` jobs — zero when `offset ≥ itemCount`
— and the schedule is the contiguous slice `items[offset : offset+count]` in
original order; for `items = [A,B,C,D,E]`, `offset = 1`, `limit = 2` the
schedule is `[B, C]`. -/
theorem claim_C1 (items : List PlaylistItem) (offset limit : Int)
    (hoff : 0 ≤ offset) (hlim : 0 ≤ limit) :
    ((scheduledSlice items (items.length : Int) offset limit).length : Int)
        = max 0 (min limit ((items.length : Int) - offset))
      ∧ ((items.length : Int) ≤ offset →
          scheduledSlice items (items.length : Int) offset limit = [])
      ∧ scheduledSlice items (items.length : Int) offset limit
          = (items.drop offset.toNat).take
              ((min limit ((items.length : Int) - offset)).toNat)
      ∧ scheduledSlice demoItems (demoItems.length : Int) 1 2
          = [⟨"B", "urlB"⟩, ⟨"C", "urlC"⟩] := by
  refine ⟨?_, ?_, scheduledSlice_eq_take_drop items offset limit hoff hlim,
    by decide⟩
  · rw [scheduledSlice_eq_take_drop items offset limit hoff hlim]
    simp only [List.length_take, List.length_drop]
    omega
  · intro h
    rw [scheduledSlice_eq_take_drop items offset limit hoff hlim,
      List.drop_eq_nil_of_le (by omega), List.take_nil]

theorem claim_C1_witness :
    ((scheduledSlice demoItems (demoItems.length : Int) 1 2).length : Int)
      = max 0 (min 2 ((demoItems.length : Int) - 1)) :=
  (claim_C1 demoItems 1 2 (by decide) (by decide)).1

/-! ### C2 -/

/-- C2: for every configured concurrency `k ≥ 1`, in every limiter state
reachable during execution at most `k` jobs hold an active execution slot. -/
theorem claim_C2 (k : Nat) (_hk : 1 ≤ k) (s : LimiterState)
    (h : LimReachable k s) : s.active ≤ k := by
  clear _hk
  induction h with
  | init => exact Nat.zero_le k
  | step _ hstep ih =>
      cases hstep with
      | submitRun hlt => exact hlt
      | submitQueue hge => exact ih
      | settleNext hq ha => exact ih
      | settleIdle hq ha => exact Nat.le_trans (Nat.sub_le _ _) ih

theorem claim_C2_witness : ({ active := 1, queued := 0 } : LimiterState).active ≤ 2 :=
  claim_C2 2 (by decide) ⟨1, 0⟩
    (LimReachable.step LimReachable.init (LimStep.submitRun ⟨0, 0⟩ (by decide)))

/-! ### C3 -/

theorem downloadVideo_result (title outputDir : String) (trace : StreamTrace) :
    (downloadVideo title outputDir trace).result
      = match trace.terminal with
        | .ended => .ok ("Finished downloading " ++ title)
        | .errored e => .error e := rfl

/-- `Promise.all` over settled outcomes with exactly one rejection yields that
rejection, not a list of entries. -/
theorem promiseAll_error_of_single (xs : List (Except JsError String))
    (i : Nat) (hi : i < xs.length) (e : JsError)
    (hx : xs.get ⟨i, hi⟩ = .error e)
    (hok : ∀ j (hj : j < xs.length), j ≠ i → ∃ a, xs.get ⟨j, hj⟩ = .ok a) :
    promiseAll xs = .error e := by
  induction xs generalizing i with
  | nil => exact absurd hi (by simp)
  | cons x rest ih =>
      cases i with
      | zero =>
          have hx0 : x = .error e := by simpa using hx
          rw [hx0]
          rfl
      | succ i' =>
          obtain ⟨a, ha⟩ := hok 0 (by simp) (by simp)
          have ha0 : x = .ok a := by simpa using ha
          have hi' : i' < rest.length := by simpa using hi
          have hx' : rest.get ⟨i', hi'⟩ = .error e := by simpa using hx
          have hok' : ∀ j (hj : j < rest.length), j ≠ i' →
              ∃ b, rest.get ⟨j, hj⟩ = .ok b := by
            intro j hj hne
            have := hok (j + 1) (by simpa using Nat.succ_lt_succ hj) (by omega)
            simpa using this
          rw [ha0]
          simp [promiseAll, ih i' hi' hx' hok', Except.map]

/-- A per-job stream error whose ad-hoc `code` field is not 404. -/
def errB : JsError := ⟨some 500, "stream failed"⟩

/-- A three-item playlist whose second item's stream fails. -/
def env3 : Env :=
  { link := "PL123"
    output := "out"
    titleDir := false
    offset := 0
    limit := 3
    ytplResult := .ok ⟨"MyList", 3, [⟨"A", "urlA"⟩, ⟨"B", "urlB"⟩, ⟨"C", "urlC"⟩]⟩
    mkdirFs := fun _ => .ok
    trace := fun item =>
      if item.title = "B" then ⟨[], .errored errB⟩ else ⟨[], .ended⟩
    basicInfo := .error ⟨some 410, "no video"⟩
    fallbackTrace := ⟨[], .ended⟩ }

/-- C3 counterexample: three scheduled jobs of which exactly one fails — all
three still run, but the awaited `Promise.all` value is the rejection itself,
so the final batch result is not a 3-entry collection with 2 successes and
1 failure as the claim requires, and the success path (`Finished downloading
3 videos`, `process.exit(0)`) is never reached. -/
theorem claim_C3_counterexample :
    (mainRun sanitizeModel env3).jobs.length = 3
      ∧ (mainRun sanitizeModel env3).batch = some (.error errB)
      ∧ (∀ entries, (mainRun sanitizeModel env3).batch ≠ some (.ok entries))
      ∧ (mainRun sanitizeModel env3).finishedLog = none := by
  have hb : (mainRun sanitizeModel env3).batch = some (.error errB) := by
    decide
  refine ⟨by decide, hb, ?_, by decide⟩
  intro entries h
  rw [hb] at h
  simp at h

/-- C3 amended: when exactly one of the N scheduled jobs fails (with an error
whose `code` is not 404), the failure cancels no sibling — all N jobs still
run to their own settlement and the process neither exits early nor calls
`process.exit` at all — but the awaited `Promise.all` value is the rejection
carrying the failing job's error, not an N-entry result with N-1 successes
and 1 failure; the error is only logged. -/
theorem claim_C3 (sanitize : String → String) (env : Env)
    (playlist : Playlist) (outputDir : String) (sched : List PlaylistItem)
    (made : List String) (i : Nat) (e : JsError)
    (hres : getPLaylist env.link env.ytplResult = .ok playlist)
    (hout : outputDir = if env.titleDir then
      pathJoin env.output (sanitize playlist.title) else env.output)
    (hmk : mkDirByPathSync env.mkdirFs (jsSplit '/' outputDir) = .ok made)
    (hsched : sched = scheduledSlice playlist.items playlist.estimated_items
      env.offset env.limit)
    (hi : i < sched.length)
    (hfail : (env.trace (sched.get ⟨i, hi⟩)).terminal = .errored e)
    (hcode : e.code ≠ some 404)
    (hok : ∀ j (hj : j < sched.length), j ≠ i →
      (env.trace (sched.get ⟨j, hj⟩)).terminal = .ended) :
    (mainRun sanitize env).scheduled = sched
      ∧ (mainRun sanitize env).jobs.length = sched.length
      ∧ (mainRun sanitize env).batch = some (.error e)
      ∧ (mainRun sanitize env).exitCode = none
      ∧ (mainRun sanitize env).errorReported = true := by
  have hmain : mainRun sanitize env
      = batchRun sanitize env playlist outputDir := by
    subst hout
    unfold mainRun
    simp only [hres, hmk]
  have hpa : promiseAll ((sched.map (fun item =>
      downloadVideo (sanitize item.title) outputDir (env.trace item))).map
        (fun j => j.result)) = .error e := by
    apply promiseAll_error_of_single _ i (by simpa using hi)
    · rw [List.get_map, List.get_map, downloadVideo_result, hfail]
    · intro j hj hne
      have hj' : j < sched.length := by simpa using hj
      refine ⟨"Finished downloading "
        ++ sanitize (sched.get ⟨j, hj'⟩).title, ?_⟩
      rw [List.get_map, List.get_map, downloadVideo_result, hok j hj' hne]
  rw [hmain]
  unfold batchRun
  rw [← hsched]
  simp only [hpa]
  rw [if_neg hcode]
  exact ⟨rfl, by simp, rfl, rfl, rfl⟩

theorem claim_C3_witness :
    (mainRun sanitizeModel env3).scheduled
        = [⟨"A", "urlA"⟩, ⟨"B", "urlB"⟩, ⟨"C", "urlC"⟩]
      ∧ (mainRun sanitizeModel env3).jobs.length
          = [(⟨"A", "urlA"⟩ : PlaylistItem), ⟨"B", "urlB"⟩, ⟨"C", "urlC"⟩].length
      ∧ (mainRun sanitizeModel env3).batch = some (.error errB)
      ∧ (mainRun sanitizeModel env3).exitCode = none
      ∧ (mainRun sanitizeModel env3).errorReported = true :=
  claim_C3 sanitizeModel env3 ⟨"MyList", 3, [⟨"A", "urlA"⟩, ⟨"B", "urlB"⟩, ⟨"C", "urlC"⟩]⟩
    "out" [⟨"A", "urlA"⟩, ⟨"B", "urlB"⟩, ⟨"C", "urlC"⟩] ["out"] 1 errB
    (by decide) (by decide) (by decide) (by decide) (by decide) (by decide)
    (by decide) (by decide)

/-! ### C4 -/

/-- C4 counterexample: the claim cites `downloadVideo` of src/index.js lines
67-94 (the first revision), which installs no handler for the stream `error`
event; on a stream error that promise never settles — the job is abandoned
forever pending. -/
theorem claim_C4_counterexample :
    downloadVideoV1 "v" ⟨[], .errored errStream⟩ = none := by
  decide

/-- C4 amended: in the final revision (src/unnamed/part_000 lines 127-164)
every stream outcome settles the promise in exactly one terminal state —
it resolves exactly when the stream ends and rejects with the stream error
exactly when the stream errors; the first revision (src/index.js lines 67-94)
instead leaves the promise forever pending on a stream error. -/
theorem claim_C4 (title outputDir : String) (trace : StreamTrace) :
    ((downloadVideo title outputDir trace).result
        = .ok ("Finished downloading " ++ title) ↔ trace.terminal = .ended)
      ∧ (∀ e, (downloadVideo title outputDir trace).result = .error e
          ↔ trace.terminal = .errored e)
      ∧ (downloadVideoV1 title trace = none ↔
          ∃ e, trace.terminal = .errored e) := by
  rcases trace with ⟨prog, term⟩
  cases term <;> simp [downloadVideo, downloadVideoV1]

theorem claim_C4_witness :
    ((downloadVideo "v" "out" ⟨[], .errored errStream⟩).result
        = .ok ("Finished downloading " ++ "v")
      ↔ (⟨[], .errored errStream⟩ : StreamTrace).terminal = .ended)
      ∧ (∀ e, (downloadVideo "v" "out" ⟨[], .errored errStream⟩).result
            = .error e
          ↔ (⟨[], .errored errStream⟩ : StreamTrace).terminal = .errored e)
      ∧ (downloadVideoV1 "v" ⟨[], .errored errStream⟩ = none ↔
          ∃ e, (⟨[], .errored errStream⟩ : StreamTrace).terminal
            = .errored e) :=
  claim_C4 "v" "out" ⟨[], .errored errStream⟩

/-! ### C5 -/

theorem strHasSub_left (s t pat : String) (h : strHasSub s pat = true) :
    strHasSub (s ++ t) pat = true := by
  unfold strHasSub at h ⊢
  rw [String.data_append]
  exact hasSub_append_left _ _ _ h

/-- C5 counterexample: on a progress tick with `total = 0` and nothing yet
downloaded, the progress handler computes `0/0` anyway; the rendered line is
exactly the string below — it contains `NaN` (as the percentage and the ETA)
and no "unavailable" marker. -/
theorem claim_C5_counterexample :
    renderProgressLine "v" ⟨0, some 0, 60000⟩
        = "Downloading v, Completed: NaN%, 0.00MB of 0.00MB,"
            ++ " estimated time left: NaNminutes"
      ∧ strHasSub (renderProgressLine "v" ⟨0, some 0, 60000⟩) "NaN" = true
      ∧ strHasSub (renderProgressLine "v" ⟨0, some 0, 60000⟩)
          "unavailable" = false :=
  ⟨by decide, by decide, by decide⟩

/-- C5 amended: on every progress tick whose reported total is zero or
undefined, the reporter still computes percentage and ETA — the rendered
line contains the divide-by-zero artifact `NaN` (zero bytes downloaded or
undefined total) or `Infinity` (positive bytes, zero total); nothing is
reported as unavailable. -/
theorem claim_C5 (d elapsedMs : Nat) (total : Option Nat)
    (htot : total = some 0 ∨ total = none) :
    strHasSub (renderProgressLine "v" ⟨d, total, elapsedMs⟩) "NaN" = true
      ∨ strHasSub (renderProgressLine "v" ⟨d, total, elapsedMs⟩)
          "Infinity" = true := by
  rcases htot with h | h <;> subst h
  · cases d with
    | zero =>
        left
        simp only [renderProgressLine]
        apply strHasSub_left
        apply strHasSub_left
        apply strHasSub_left
        apply strHasSub_left
        apply strHasSub_left
        apply strHasSub_left
        apply strHasSub_left
        apply strHasSub_left
        apply strHasSub_left
        rfl
    | succ m =>
        right
        simp only [renderProgressLine]
        apply strHasSub_left
        apply strHasSub_left
        apply strHasSub_left
        apply strHasSub_left
        apply strHasSub_left
        apply strHasSub_left
        apply strHasSub_left
        apply strHasSub_left
        apply strHasSub_left
        rfl
  · left
    simp only [renderProgressLine]
    apply strHasSub_left
    apply strHasSub_left
    apply strHasSub_left
    apply strHasSub_left
    apply strHasSub_left
    apply strHasSub_left
    apply strHasSub_left
    apply strHasSub_left
    apply strHasSub_left
    rfl

theorem claim_C5_witness :
    strHasSub (renderProgressLine "v" ⟨5, some 0, 60000⟩) "NaN" = true
      ∨ strHasSub (renderProgressLine "v" ⟨5, some 0, 60000⟩)
          "Infinity" = true :=
  claim_C5 5 60000 (some 0) (Or.inl rfl)

/-! ### C6 -/

/-- A reference that `ytpl` rejects, with a resolvable single video. -/
def env404 : Env :=
  { link := "abc"
    output := "out"
    titleDir := false
    offset := 0
    limit := 5
    ytplResult := .error ⟨none, "not a playlist"⟩
    mkdirFs := fun _ => .ok
    trace := fun _ => ⟨[], .ended⟩
    basicInfo := .ok ⟨"Vid", "vurl"⟩
    fallbackTrace := ⟨[], .ended⟩ }

/-- C6: when the playlist resolver reports not-found (the 404 rejection),
exactly one single-item download is attempted, built from the basic
single-item metadata (`ytdl.getBasicInfo`) and run directly — nothing goes
through the limiter; on any other resolution error (the 400 rejection for a
missing link) the error is reported and no download of either kind is
attempted, the basic-info path is not even queried. -/
theorem claim_C6 (sanitize : String → String) (env : Env) :
    (∀ e : JsError, getPLaylist env.link env.ytplResult = .error e →
      e.code = some 404 →
      ∀ info : VideoInfo, env.basicInfo = .ok info →
      ∀ made : List String,
        mkDirByPathSync env.mkdirFs (jsSplit '/' env.output) = .ok made →
        (mainRun sanitize env).direct
            = [downloadVideo info.title env.output env.fallbackTrace]
          ∧ (mainRun sanitize env).scheduled = []
          ∧ (mainRun sanitize env).jobs = []
          ∧ (mainRun sanitize env).basicInfoRequested = true)
      ∧ (∀ e : JsError, getPLaylist env.link env.ytplResult = .error e →
          e.code ≠ some 404 →
          (mainRun sanitize env).direct = []
            ∧ (mainRun sanitize env).scheduled = []
            ∧ (mainRun sanitize env).basicInfoRequested = false
            ∧ (mainRun sanitize env).errorReported = true) := by
  constructor
  · intro e hres h4 info hinfo made hmk
    have hm : mainRun sanitize env = fallbackRun env {} := by
      unfold mainRun
      simp only [hres]
      rw [if_pos h4]
    rw [hm]
    unfold fallbackRun
    simp only [hinfo, hmk]
    cases hr : (downloadVideo info.title env.output env.fallbackTrace).result
      <;> simp [hr]
  · intro e hres h4
    have hm : mainRun sanitize env = { errorReported := true } := by
      unfold mainRun
      simp only [hres]
      rw [if_neg h4]
    rw [hm]
    exact ⟨rfl, rfl, rfl, rfl⟩

theorem claim_C6_witness :
    (mainRun sanitizeModel env404).direct
        = [downloadVideo "Vid" "out" ⟨[], .ended⟩]
      ∧ (mainRun sanitizeModel env404).scheduled = []
      ∧ (mainRun sanitizeModel env404).jobs = []
      ∧ (mainRun sanitizeModel env404).basicInfoRequested = true :=
  (claim_C6 sanitizeModel env404).1 ⟨some 404, "Playlist link or id not found"⟩
    (by decide) (by decide) ⟨"Vid", "vurl"⟩ (by decide) ["out"] (by decide)

/-! ### C7 -/

/-- The environment with the required link missing (empty). -/
def envNoLink : Env := { env404 with link := "" }

/-- A playlist of two items that both download successfully. -/
def envAllOk : Env :=
  { link := "PLok"
    output := "out"
    titleDir := false
    offset := 0
    limit := 2
    ytplResult := .ok ⟨"L", 2, [⟨"A", "uA"⟩, ⟨"B", "uB"⟩]⟩
    mkdirFs := fun _ => .ok
    trace := fun _ => ⟨[], .ended⟩
    basicInfo := .error ⟨none, "no"⟩
    fallbackTrace := ⟨[], .ended⟩ }

/-- C7 counterexample: a missing link is a fatal resolution error that
prevents any scheduling, yet the action only logs the 400 error and never
calls `process.exit`, so the process ends with the default status 0 — not
with exit code 1 as the claim requires. -/
theorem claim_C7_counterexample :
    (mainRun sanitizeModel envNoLink).exitCode = none
      ∧ (mainRun sanitizeModel envNoLink).scheduled = []
      ∧ (mainRun sanitizeModel envNoLink).errorReported = true := by
  decide

/-- C7 amended: the process exits with code 0 (an explicit `process.exit(0)`)
when the full batch completes; but of the fatal pre-scheduling errors only a
failing single-video fallback reaches `process.exit(1)` — a missing link
(the 400 rejection) and a directory-setup failure are merely logged with no
`process.exit` call, leaving the process to exit with the default status 0. -/
theorem claim_C7 (sanitize : String → String) (env : Env) :
    (∀ (playlist : Playlist) (outputDir : String) (made : List String)
        (msgs : List String),
      getPLaylist env.link env.ytplResult = .ok playlist →
      outputDir = (if env.titleDir then
        pathJoin env.output (sanitize playlist.title) else env.output) →
      mkDirByPathSync env.mkdirFs (jsSplit '/' outputDir) = .ok made →
      promiseAll (((scheduledSlice playlist.items playlist.estimated_items
          env.offset env.limit).map (fun item =>
            downloadVideo (sanitize item.title) outputDir (env.trace item))).map
          (fun j => j.result)) = .ok msgs →
      (mainRun sanitize env).exitCode = some 0
        ∧ (mainRun sanitize env).finishedLog = some msgs.length)
      ∧ (env.link = "" →
          (mainRun sanitize env).exitCode = none
            ∧ (mainRun sanitize env).errorReported = true
            ∧ (mainRun sanitize env).scheduled = [])
      ∧ (∀ (playlist : Playlist) (outputDir msg : String),
          getPLaylist env.link env.ytplResult = .ok playlist →
          outputDir = (if env.titleDir then
            pathJoin env.output (sanitize playlist.title) else env.output) →
          mkDirByPathSync env.mkdirFs (jsSplit '/' outputDir) = .error msg →
          (mainRun sanitize env).exitCode = none
            ∧ (mainRun sanitize env).errorReported = true
            ∧ (mainRun sanitize env).scheduled = [])
      ∧ (∀ (e err : JsError),
          getPLaylist env.link env.ytplResult = .error e →
          e.code = some 404 → env.basicInfo = .error err →
          (mainRun sanitize env).exitCode = some 1) := by
  refine ⟨?_, ?_, ?_, ?_⟩
  · intro playlist outputDir made msgs hres hout hmk hall
    have hmain : mainRun sanitize env
        = batchRun sanitize env playlist outputDir := by
      subst hout
      unfold mainRun
      simp only [hres, hmk]
    rw [hmain]
    unfold batchRun
    simp only [hall]
    simp
  · intro hl
    have hres : getPLaylist env.link env.ytplResult
        = .error ⟨some 400, "No playlist link provided"⟩ := by
      simp [getPLaylist, hl]
    have hm : mainRun sanitize env = { errorReported := true } := by
      unfold mainRun
      rw [hres]
      rfl
    rw [hm]
    exact ⟨rfl, rfl, rfl⟩
  · intro playlist outputDir msg hres hout hmk
    have hm : mainRun sanitize env = { errorReported := true } := by
      subst hout
      unfold mainRun
      simp only [hres, hmk]
    rw [hm]
    exact ⟨rfl, rfl, rfl⟩
  · intro e err hres h4 hinfo
    have hm : mainRun sanitize env = fallbackRun env {} := by
      unfold mainRun
      simp only [hres]
      rw [if_pos h4]
    rw [hm]
    unfold fallbackRun
    simp only [hinfo]

theorem claim_C7_witness :
    (mainRun sanitizeModel envAllOk).exitCode = some 0
      ∧ (mainRun sanitizeModel envAllOk).finishedLog
          = some ["Finished downloading A", "Finished downloading B"].length :=
  (claim_C7 sanitizeModel envAllOk).1 ⟨"L", 2, [⟨"A", "uA"⟩, ⟨"B", "uB"⟩]⟩
    "out" ["out"] ["Finished downloading A", "Finished downloading B"]
    (by decide) (by decide) (by decide) (by decide)

/-! ### C8 -/

/-- C8 counterexample: an `EACCES` failure creating the intermediate segment
`a` of `a/b` — a non-`EEXIST` filesystem error on an intermediate path
segment — is swallowed: `mkDirByPathSync` returns normally instead of being
fatal. -/
theorem claim_C8_counterexample :
    mkDirByPathSync (fun d => if d = ["a"] then .error "EACCES" else .ok)
        ["a", "b"] = .ok ["a", "b"]
      ∧ ∀ msg, mkDirByPathSync
          (fun d => if d = ["a"] then .error "EACCES" else .ok)
          ["a", "b"] ≠ .error msg := by
  have h : mkDirByPathSync (fun d => if d = ["a"] then .error "EACCES" else .ok)
      ["a", "b"] = .ok ["a", "b"] := by decide
  refine ⟨h, fun msg hc => ?_⟩
  rw [h] at hc
  exact Except.noConfusion hc

/-- C8 amended: the orchestrator creates `outputDir` before scheduling, and a
`mkDirByPathSync` failure aborts the batch with nothing scheduled; creating an
already-existing directory (`EEXIST`) is never an error; but of the other
filesystem errors only some are fatal on an intermediate segment: `ENOENT`
and unrecognized codes abort anywhere, while `EACCES`/`EPERM`/`EISDIR` abort
only on the final segment and are swallowed on intermediate ones. -/
theorem claim_C8 (sanitize : String → String) (env : Env)
    (mkdir : List String → FsResult) :
    ((∀ d, mkdir d = .ok ∨ mkdir d = .error "EEXIST") →
      ∀ segs, ∃ made, mkDirByPathSync mkdir segs = .ok made)
      ∧ (∀ (target parent : List String) (child code : String),
          code = "EACCES" ∨ code = "EPERM" ∨ code = "EISDIR" →
          mkdir (parent ++ [child]) = .error code →
          parent ++ [child] ≠ target →
          mkDirStep mkdir target parent child = .ok (parent ++ [child]))
      ∧ (∀ (target parent : List String) (child code : String),
          code = "EACCES" ∨ code = "EPERM" ∨ code = "EISDIR" →
          mkdir (parent ++ [child]) = .error code →
          parent ++ [child] = target →
          mkDirStep mkdir target parent child = .error code)
      ∧ (∀ (target parent : List String) (child : String),
          mkdir (parent ++ [child]) = .error "ENOENT" →
          mkDirStep mkdir target parent child
            = .error ("EACCES: permission denied, mkdir "
                ++ String.intercalate "/" parent))
      ∧ (∀ (target parent : List String) (child code : String),
          code ≠ "EEXIST" → code ≠ "ENOENT" →
          ¬(code = "EACCES" ∨ code = "EPERM" ∨ code = "EISDIR") →
          mkdir (parent ++ [child]) = .error code →
          mkDirStep mkdir target parent child = .error code)
      ∧ (∀ (playlist : Playlist) (outputDir msg : String),
          getPLaylist env.link env.ytplResult = .ok playlist →
          outputDir = (if env.titleDir then
            pathJoin env.output (sanitize playlist.title) else env.output) →
          mkDirByPathSync env.mkdirFs (jsSplit '/' outputDir) = .error msg →
          (mainRun sanitize env).scheduled = []
            ∧ (mainRun sanitize env).jobs = []
            ∧ (mainRun sanitize env).batch = none) := by
  refine ⟨?_, ?_, ?_, ?_, ?_, ?_⟩
  · intro hall segs
    suffices h : ∀ (ss parent : List String),
        ∃ made, List.foldl (fun (acc : Except String (List String)) childDir =>
          match acc with
          | .error e => .error e
          | .ok parentDir => mkDirStep mkdir segs parentDir childDir)
          (Except.ok parent) ss = .ok made by
      exact h segs []
    intro ss
    induction ss with
    | nil => exact fun parent => ⟨parent, rfl⟩
    | cons c rest ih =>
        intro parent
        have hstep : mkDirStep mkdir segs parent c = .ok (parent ++ [c]) := by
          rcases hall (parent ++ [c]) with hok | hex
          · simp [mkDirStep, hok]
          · simp [mkDirStep, hex]
        simp only [List.foldl_cons]
        rw [hstep]
        exact ih (parent ++ [c])
  · intro target parent child code hcode hmk hne
    rcases hcode with rfl | rfl | rfl <;> simp [mkDirStep, hmk, hne]
  · intro target parent child code hcode hmk heq
    rw [heq] at hmk
    rcases hcode with rfl | rfl | rfl <;> simp [mkDirStep, hmk, heq]
  · intro target parent child hmk
    simp [mkDirStep, hmk]
  · intro target parent child code h1 h2 h3 hmk
    simp [mkDirStep, hmk, h1, h2, h3]
  · intro playlist outputDir msg hres hout hmk
    have hm : mainRun sanitize env = { errorReported := true } := by
      subst hout
      unfold mainRun
      simp only [hres, hmk]
    rw [hm]
    exact ⟨rfl, rfl, rfl⟩

theorem claim_C8_witness :
    ∃ made, mkDirByPathSync (fun _ => FsResult.error "EEXIST") ["a", "b"]
      = .ok made :=
  (claim_C8 sanitizeModel envAllOk (fun _ => FsResult.error "EEXIST")).1
    (fun _ => Or.inr rfl) ["a", "b"]

/-! ### C9 -/

theorem batchRun_fields (sanitize : String → String) (env : Env)
    (playlist : Playlist) (outputDir : String) :
    (batchRun sanitize env playlist outputDir).scheduled
        = scheduledSlice playlist.items playlist.estimated_items
            env.offset env.limit
      ∧ (batchRun sanitize env playlist outputDir).jobs
          = (scheduledSlice playlist.items playlist.estimated_items
              env.offset env.limit).map (fun item =>
                downloadVideo (sanitize item.title) outputDir
                  (env.trace item)) := by
  unfold batchRun
  cases hp : promiseAll (List.map (fun j => j.result)
    (List.map (fun item =>
        downloadVideo (sanitize item.title) outputDir (env.trace item))
      (scheduledSlice playlist.items playlist.estimated_items
        env.offset env.limit))) with
  | ok msgs => constructor <;> simp only [hp]
  | error e =>
      simp only [hp]
      by_cases h4 : e.code = some 404
      · rw [if_pos h4]
        exact ⟨(fallbackRun_fields env _).1, (fallbackRun_fields env _).2.1⟩
      · rw [if_neg h4]
        exact ⟨rfl, rfl⟩

/-- The environment of `env404` with a video title that needs sanitizing. -/
def env404bad : Env := { env404 with basicInfo := .ok ⟨"a/b", "vurl"⟩ }

/-- C9 counterexample: on the single-item fallback path the raw
`videoDetails.title` is used unsanitized — a title containing a path
separator produces the file path `out/a/b.mp4`, not
`out/<sanitized>.mp4`. -/
theorem claim_C9_counterexample :
    (mainRun sanitizeModel env404bad).direct.map (fun r => r.filePath)
        = ["out/a/b.mp4"]
      ∧ sanitizeModel "a/b" = "ab"
      ∧ pathJoin "out" (sanitizeModel "a/b" ++ ".mp4") ≠ "out/a/b.mp4" :=
  ⟨by decide, by decide, by decide⟩

/-- C9 amended: every playlist-path job's title is sanitized before use —
its destination is `outputDir/sanitize(title).mp4` — but the single-item
fallback path passes the raw basic-info title into the filename with no
sanitization: its destination is `outputDir/title.mp4` verbatim. -/
theorem claim_C9 (sanitize : String → String) (env : Env) :
    (∀ (playlist : Playlist) (outputDir : String) (made : List String),
      getPLaylist env.link env.ytplResult = .ok playlist →
      outputDir = (if env.titleDir then
        pathJoin env.output (sanitize playlist.title) else env.output) →
      mkDirByPathSync env.mkdirFs (jsSplit '/' outputDir) = .ok made →
      (mainRun sanitize env).jobs.map (fun j => j.filePath)
        = (scheduledSlice playlist.items playlist.estimated_items
            env.offset env.limit).map (fun item =>
              pathJoin outputDir (sanitize item.title ++ ".mp4")))
      ∧ (∀ (e : JsError) (info : VideoInfo) (made : List String),
          getPLaylist env.link env.ytplResult = .error e →
          e.code = some 404 → env.basicInfo = .ok info →
          mkDirByPathSync env.mkdirFs (jsSplit '/' env.output) = .ok made →
          (mainRun sanitize env).direct.map (fun j => j.filePath)
            = [pathJoin env.output (info.title ++ ".mp4")]) := by
  constructor
  · intro playlist outputDir made hres hout hmk
    have hmain : mainRun sanitize env
        = batchRun sanitize env playlist outputDir := by
      subst hout
      unfold mainRun
      simp only [hres, hmk]
    rw [hmain, (batchRun_fields sanitize env playlist outputDir).2,
      List.map_map]
    rfl
  · intro e info made hres h4 hinfo hmk
    have hm : mainRun sanitize env = fallbackRun env {} := by
      unfold mainRun
      simp only [hres]
      rw [if_pos h4]
    rw [hm]
    unfold fallbackRun
    simp only [hinfo, hmk]
    cases hr : (downloadVideo info.title env.output env.fallbackTrace).result
      <;> simp [hr]
      <;> rfl

theorem claim_C9_witness :
    (mainRun sanitizeModel envAllOk).jobs.map (fun j => j.filePath)
      = (scheduledSlice [⟨"A", "uA"⟩, ⟨"B", "uB"⟩] 2 0 2).map
          (fun item => pathJoin "out" (sanitizeModel item.title ++ ".mp4")) :=
  (claim_C9 sanitizeModel envAllOk).1 ⟨"L", 2, [⟨"A", "uA"⟩, ⟨"B", "uB"⟩]⟩
    "out" ["out"] (by decide) (by decide) (by decide)

/-! ### C10 -/

/-- C10: for a nonempty link, `getPLaylist` translates every failure of the
underlying `ytpl` resolution — whatever its cause — into a rejection with
code 404 and message "Playlist link or id not found", which makes `main`
request the single-item fallback; only an empty link is rejected with the
distinct code 400, which is reported without requesting the fallback. -/
theorem claim_C10 (link : String) (hlink : link ≠ "") :
    (∀ err : JsError, getPLaylist link (.error err)
        = .error ⟨some 404, "Playlist link or id not found"⟩)
      ∧ (∀ r, getPLaylist "" r
          = .error ⟨some 400, "No playlist link provided"⟩)
      ∧ (∀ (sanitize : String → String) (env : Env) (err : JsError),
          env.link = link → env.ytplResult = .error err →
          (mainRun sanitize env).basicInfoRequested = true)
      ∧ (∀ (sanitize : String → String) (env : Env),
          env.link = "" →
          (mainRun sanitize env).basicInfoRequested = false
            ∧ (mainRun sanitize env).errorReported = true) := by
  refine ⟨fun err => by simp [getPLaylist, hlink], fun r => by simp [getPLaylist],
    ?_, ?_⟩
  · intro sanitize env err hl hy
    have hres : getPLaylist env.link env.ytplResult
        = .error ⟨some 404, "Playlist link or id not found"⟩ := by
      simp [getPLaylist, hl, hlink, hy]
    have hm : mainRun sanitize env = fallbackRun env {} := by
      unfold mainRun
      rw [hres]
      rfl
    rw [hm]
    exact (fallbackRun_fields env {}).2.2.2
  · intro sanitize env hl
    have hres : getPLaylist env.link env.ytplResult
        = .error ⟨some 400, "No playlist link provided"⟩ := by
      simp [getPLaylist, hl]
    have hm : mainRun sanitize env = { errorReported := true } := by
      unfold mainRun
      rw [hres]
      rfl
    rw [hm]
    exact ⟨rfl, rfl⟩

theorem claim_C10_witness :
    getPLaylist "PLx" (.error ⟨none, "network down"⟩)
      = .error ⟨some 404, "Playlist link or id not found"⟩ :=
  (claim_C10 "PLx" (by decide)).1 ⟨none, "network down"⟩

end Ytdl
